import Mathlib

/-!
Shallow embedding of the Amphitheatre composer core: the Playbook
reconciler state machine (`src/composer/controller.rs`), the dependency
resolver dispatch (`resolver/src/partner.rs`) and the playbook service
surface (`apiserver/src/services/playbook.rs`).

Store mutations, event publication and build/deploy invocations are
asynchronous external calls; we model each call's outcome through an
`Env` record (a `none` entry means the call succeeds) and record the
successful calls as an `Effect` trace, so that "no store mutation"
claims become statements about the trace being empty.
-/

namespace Amphitheatre

/-- An Actor, mirroring `crate::resources::types::Actor` as used by
`controller.rs` (all fields written by `read_partner`). The Rust
`HashMap<String, String>` environment is modelled as an association
list. -/
structure Actor where
  name : String
  description : String
  image : String
  repo : String
  path : String
  reference : String
  commit : String
  environment : List (String × String)
  partners : List String
deriving DecidableEq, Repr

/-- The Playbook lifecycle states `status.state ∈ {Pending, Solving,
Ready, Running}`. -/
inductive PlaybookState where
  | Pending
  | Solving
  | Ready
  | Running
deriving DecidableEq, Repr

/-- `spec` of a Playbook: the ordered actor list. -/
structure PlaybookSpec where
  actors : List Actor
deriving DecidableEq, Repr

/-- A Playbook object as seen by the reconciler: name, spec, reported
status (absent until some writer reports one; `status.pending()` etc.
are modelled as equality with the corresponding state), and the
deletion marker that switches the finalizer protocol from Apply to
Cleanup. -/
structure Playbook where
  name : String
  spec : PlaybookSpec
  status : Option PlaybookState
  deletionRequested : Bool
deriving DecidableEq, Repr

/-- An opaque store/Kubernetes error payload. -/
inductive KubeErr where
  | err (msg : String)
deriving DecidableEq, Repr

mutual
/-- The reconciler error type (`crate::resources::error::Error` per the
error taxonomy): the empty-actors precondition error, wrapped store
errors, and the finalizer wrapper error. -/
inductive Error where
  | EmptyActorsError : Error
  | KubeError : KubeErr → Error
  | FinalizerError : FinErr → Error

/-- The finalizer-protocol error (`kube::runtime::finalizer::Error`):
apply/cleanup body failures carry the inner reconciler error; the
remaining constructors are protocol-machinery failures. -/
inductive FinErr where
  | applyFailed : Error → FinErr
  | cleanupFailed : Error → FinErr
  | removeFinalizerFailed : KubeErr → FinErr
end

/-- Requeue actions returned by reconcile / error_policy. -/
inductive Action where
  | awaitChange
  | requeue (secs : Nat)
deriving DecidableEq, Repr

/-- One externally visible call performed (successfully) during a
reconcile pass: a status patch, an actor-list append, an audit-event
publication, a build/deploy invocation, or the finalizer release. -/
inductive Effect where
  | patchStatus (s : PlaybookState)
  | addActor (a : Actor)
  | publish (etype : String) (reason : String) (note : String) (action : String)
  | build (a : Actor)
  | deploy (a : Actor)
  | removeFinalizer
deriving DecidableEq, Repr

/-- Outcomes of the external asynchronous calls a reconcile pass may
make: `none` means the call succeeds, `some e` that it fails with the
store error `e`. -/
structure Env where
  patchStatusRes : Option KubeErr
  addActorRes : Option KubeErr
  publishRes : Option KubeErr
  buildRes : Option KubeErr
  deployRes : Option KubeErr
  removeFinalizerRes : Option KubeErr
deriving DecidableEq, Repr

/-- The environment in which every external call succeeds. -/
def Env.allOk : Env :=
  { patchStatusRes := none, addActorRes := none, publishRes := none,
    buildRes := none, deployRes := none, removeFinalizerRes := none }

/-- `read_partner` from `controller.rs`: the fixed placeholder actor,
only its `repo` depends on the url. -/
def read_partner (url : String) : Actor :=
  { name := "amp-example-nodejs"
    description := "A simple NodeJs example app"
    image := "amp-example-nodejs"
    repo := url
    path := "."
    reference := "master"
    commit := "285ef2bc98fb6b3db46a96b6a750fad2d0c566b5"
    environment := []
    partners := [] }

/-- The body of the inner partner loop of `solve`: skip a partner repo
already materialized (`exists.contains`) or already queued
(`HashSet::insert` keeps one copy); otherwise queue it. -/
def insertFetch (ex : List String) (fs : List String) (repo : String) : List String :=
  if repo ∈ ex then fs else if repo ∈ fs then fs else fs ++ [repo]

/-- The inner loop `for repo in &actor.partners` of `solve`. -/
def collectPartners (ex : List String) (fs : List String) : List String → List String
  | [] => fs
  | repo :: rest => collectPartners ex (insertFetch ex fs repo) rest

/-- The outer loop `for actor in &self.spec.actors` of `solve`; the
`if actor.partners.is_empty() { continue }` guard in the source is a
no-op (the inner loop over an empty list already does nothing). -/
def collectActors (ex : List String) (fs : List String) : List Actor → List String
  | [] => fs
  | a :: rest => collectActors ex (collectPartners ex fs a.partners) rest

/-- The `fetches` set computed by one `solve` pass, as the list of its
elements in first-insertion order (the Rust `HashSet` iteration order
is unspecified; all claims below are order-insensitive or about this
fixed enumeration). -/
def solveFetches (actors : List Actor) : List String :=
  collectActors (actors.map fun a => a.repo) [] actors

/-- The `for url in fetches.iter()` loop of `solve`: each url is turned
into an actor by `read_partner` and persisted via `actor::add`; an add
failure aborts the loop with the wrapped store error. -/
def addActors (env : Env) : List String → List Effect × Except Error Unit
  | [] => ([], .ok ())
  | url :: rest =>
    match env.addActorRes with
    | some e => ([], .error (.KubeError e))
    | none =>
      let (effs, r) := addActors env rest
      (.addActor (read_partner url) :: effs, r)

/-- `Playbook::start`: patch the status to Solving. -/
def Playbook.start (_p : Playbook) (env : Env) : List Effect × Except Error Unit :=
  match env.patchStatusRes with
  | none => ([Effect.patchStatus .Solving], .ok ())
  | some e => ([], .error (.KubeError e))

/-- `Playbook::solve`: compute the missing partner repos, append one
actor per missing repo, and patch the status to Ready exactly when the
missing set is empty. -/
def Playbook.solve (p : Playbook) (env : Env) : List Effect × Except Error Unit :=
  let fetches := solveFetches p.spec.actors
  match addActors env fetches with
  | (effs, .error e) => (effs, .error e)
  | (effs, .ok ()) =>
    if fetches.isEmpty then
      match env.patchStatusRes with
      | none => (effs ++ [Effect.patchStatus .Ready], .ok ())
      | some e => (effs, .error (.KubeError e))
    else (effs, .ok ())

/-- The `for actor in &self.spec.actors` loop of `Playbook::run`:
build then deploy each actor in order, aborting on the first failure. -/
def runActors (env : Env) : List Actor → List Effect × Except Error Unit
  | [] => ([], .ok ())
  | a :: rest =>
    match env.buildRes with
    | some e => ([], .error (.KubeError e))
    | none =>
      match env.deployRes with
      | some e => ([Effect.build a], .error (.KubeError e))
      | none =>
        let (effs, r) := runActors env rest
        (Effect.build a :: Effect.deploy a :: effs, r)

/-- `Playbook::run`. -/
def Playbook.run (p : Playbook) (env : Env) : List Effect × Except Error Unit :=
  runActors env p.spec.actors

/-- `Playbook::reconcile` (the Apply body): dispatch on the reported
status; with no status reported, do nothing; always answer
`Action::await_change()` on success. -/
def Playbook.reconcile (p : Playbook) (env : Env) : List Effect × Except Error Action :=
  match p.status with
  | none => ([], .ok .awaitChange)
  | some s =>
    let (effs, r) :=
      match s with
      | .Pending => p.start env
      | .Solving => p.solve env
      | .Running => p.run env
      | .Ready => ([], .ok ())
    (effs, r.map fun _ => Action.awaitChange)

/-- The audit note `format!("Delete playbook `{}`", self.name_any())`. -/
def deleteNote (name : String) : String :=
  "Delete playbook `" ++ name ++ "`"

/-- `Playbook::cleanup`: publish exactly one deletion audit event; a
publish failure is mapped to `Error::KubeError` and fails the cleanup. -/
def Playbook.cleanup (p : Playbook) (env : Env) : List Effect × Except Error Action :=
  match env.publishRes with
  | none =>
    ([Effect.publish "Normal" "DeletePlaybook" (deleteNote p.name) "Reconciling"],
     .ok .awaitChange)
  | some e => ([], .error (.KubeError e))

/-- Modelled from the spec: the finalizer/cleanup protocol of
`kube::runtime::finalizer` (the crate is not part of this repository's
sources). Per the spec's protocol description it dispatches Apply on a
normal reconcile and, on an object marked for deletion, runs Cleanup
and then releases the finalizer marker so the store can complete the
physical delete; body failures surface as `applyFailed`/`cleanupFailed`
and a failure to release the marker as `removeFinalizerFailed`. -/
def finalizer (p : Playbook) (env : Env) : List Effect × Except FinErr Action :=
  if p.deletionRequested then
    match p.cleanup env with
    | (effs, .error e) => (effs, .error (.cleanupFailed e))
    | (effs, .ok a) =>
      match env.removeFinalizerRes with
      | none => (effs ++ [Effect.removeFinalizer], .ok a)
      | some e => (effs, .error (.removeFinalizerFailed e))
  else
    match p.reconcile env with
    | (effs, .error e) => (effs, .error (.applyFailed e))
    | (effs, .ok a) => (effs, .ok a)

/-- The top-level `reconcile` entry point of `controller.rs`: fail fast
with `EmptyActorsError` when `spec.actors` is empty, before any
finalizer dispatch; otherwise run the finalizer protocol and wrap any
of its failures in `Error::FinalizerError`. -/
def reconcile (p : Playbook) (env : Env) : List Effect × Except Error Action :=
  if p.spec.actors.isEmpty then ([], .error .EmptyActorsError)
  else
    match finalizer p env with
    | (effs, .ok a) => (effs, .ok a)
    | (effs, .error e) => (effs, .error (.FinalizerError e))

/-- `error_policy`: every reconcile error leads to a fixed 60-second
requeue. -/
def error_policy (_e : Error) : Action :=
  .requeue 60

/-- Apply one recorded effect to the stored Playbook object (status
patches and actor appends mutate it; events, build/deploy and the
finalizer release do not change the object's spec or status). -/
def applyEffect (p : Playbook) : Effect → Playbook
  | .patchStatus s => { p with status := some s }
  | .addActor a => { p with spec := ⟨p.spec.actors ++ [a]⟩ }
  | _ => p

/-- Replay a trace of effects on the stored object. -/
def applyEffects (p : Playbook) (effs : List Effect) : Playbook :=
  effs.foldl applyEffect p

theorem mem_insertFetch {ex fs : List String} {repo r : String} :
    r ∈ insertFetch ex fs repo ↔ r ∈ fs ∨ (r = repo ∧ repo ∉ ex ∧ repo ∉ fs) := by
  unfold insertFetch
  split_ifs with h1 h2 <;> simp_all

theorem mem_collectPartners {ex : List String} {r : String} :
    ∀ (ps fs : List String),
      r ∈ collectPartners ex fs ps ↔ r ∈ fs ∨ (r ∈ ps ∧ r ∉ ex) := by
  intro ps
  induction ps with
  | nil => intro fs; simp [collectPartners]
  | cons p ps ih =>
    intro fs
    rw [collectPartners, ih, mem_insertFetch]
    constructor
    · rintro ((h | ⟨rfl, hne, _⟩) | ⟨hp, hne⟩)
      · exact .inl h
      · exact .inr ⟨List.mem_cons_self _ _, hne⟩
      · exact .inr ⟨List.mem_cons_of_mem _ hp, hne⟩
    · rintro (h | ⟨hp, hne⟩)
      · exact .inl (.inl h)
      · rcases List.mem_cons.mp hp with rfl | hp
        · by_cases hf : r ∈ fs
          · exact .inl (.inl hf)
          · exact .inl (.inr ⟨rfl, hne, hf⟩)
        · exact .inr ⟨hp, hne⟩

theorem nodup_insertFetch {ex fs : List String} {repo : String}
    (h : fs.Nodup) : (insertFetch ex fs repo).Nodup := by
  unfold insertFetch
  split_ifs with h1 h2
  · exact h
  · exact h
  · simp [List.nodup_append, h, h2]

theorem nodup_collectPartners {ex : List String} :
    ∀ (ps fs : List String), fs.Nodup → (collectPartners ex fs ps).Nodup := by
  intro ps
  induction ps with
  | nil => intro fs h; simpa [collectPartners] using h
  | cons p ps ih => intro fs h; exact ih _ (nodup_insertFetch h)

theorem mem_collectActors {ex : List String} {r : String} :
    ∀ (as : List Actor) (fs : List String),
      r ∈ collectActors ex fs as ↔
        r ∈ fs ∨ ((∃ a ∈ as, r ∈ a.partners) ∧ r ∉ ex) := by
  intro as
  induction as with
  | nil => intro fs; simp [collectActors]
  | cons a as ih =>
    intro fs
    rw [collectActors, ih, mem_collectPartners]
    constructor
    · rintro ((h | ⟨hp, hne⟩) | ⟨⟨b, hb, hp⟩, hne⟩)
      · exact .inl h
      · exact .inr ⟨⟨a, List.mem_cons_self _ _, hp⟩, hne⟩
      · exact .inr ⟨⟨b, List.mem_cons_of_mem _ hb, hp⟩, hne⟩
    · rintro (h | ⟨⟨b, hb, hp⟩, hne⟩)
      · exact .inl (.inl h)
      · rcases List.mem_cons.mp hb with rfl | hb
        · exact .inl (.inr ⟨hp, hne⟩)
        · exact .inr ⟨⟨b, hb, hp⟩, hne⟩

theorem nodup_collectActors {ex : List String} :
    ∀ (as : List Actor) (fs : List String), fs.Nodup → (collectActors ex fs as).Nodup := by
  intro as
  induction as with
  | nil => intro fs h; simpa [collectActors] using h
  | cons a as ih => intro fs h; exact ih _ (nodup_collectPartners _ _ h)

/-- Membership in the `fetches` set: exactly the partner repos
referenced by some current actor that are not the repo of any current
actor. -/
theorem mem_solveFetches {actors : List Actor} {r : String} :
    r ∈ solveFetches actors ↔
      (∃ a ∈ actors, r ∈ a.partners) ∧ r ∉ actors.map (fun a => a.repo) := by
  rw [solveFetches, mem_collectActors]
  simp

/-- The `fetches` enumeration lists each missing repo exactly once. -/
theorem nodup_solveFetches {actors : List Actor} : (solveFetches actors).Nodup :=
  nodup_collectActors _ _ List.nodup_nil

theorem addActors_ok {env : Env} (h : env.addActorRes = none) :
    ∀ ls : List String,
      addActors env ls = (ls.map fun u => Effect.addActor (read_partner u), .ok ()) := by
  intro ls
  induction ls with
  | nil => simp [addActors]
  | cons u ls ih => simp [addActors, h, ih]

theorem applyEffects_append {p : Playbook} {l₁ l₂ : List Effect} :
    applyEffects p (l₁ ++ l₂) = applyEffects (applyEffects p l₁) l₂ :=
  List.foldl_append _ _ _ _

theorem applyEffects_addActorList :
    ∀ (ls : List String) (p : Playbook),
      applyEffects p (ls.map fun u => Effect.addActor (read_partner u)) =
        { p with spec := ⟨p.spec.actors ++ ls.map read_partner⟩ } := by
  intro ls
  induction ls with
  | nil => intro p; simp [applyEffects]
  | cons u ls ih =>
    intro p
    rw [List.map_cons]
    show applyEffects (applyEffect p _) _ = _
    rw [ih]
    simp [applyEffect]

/-- A git reference payload as carried by `Partner::Repository`
(`amp_common::schema::GitReference`; opaque to the dispatch). -/
structure GitReference where
  repo : String
deriving DecidableEq, Repr

/-- Modelled from the spec: the `Partner` tagged variant of
`amp_common::resource` (the crate is not part of this repository's
sources) — `Registry{registry, version}` with an optional registry
name, `Repository{reference}`, or some other/unsupported variant,
collapsed into one stand-in constructor. -/
inductive Partner where
  | Registry (registry : Option String) (version : String)
  | Repository (reference : GitReference)
  | Other
deriving DecidableEq, Repr

/-- The resolver error type (`ResolveError` of `resolver/src/errors.rs`
as used by `partner.rs`). -/
inductive ResolveError where
  | UnknownCharacterRegistry (name : String)
  | UnsupportedPartner
deriving DecidableEq, Repr

/-- Which source-loading collaborator `load` dispatched to, with the
arguments it forwarded (credentials and the cluster client are opaque
and omitted). -/
inductive LoadPath where
  | catalog (name : String) (version : String)
  | cluster (name : String)
  | source (reference : GitReference)
deriving DecidableEq, Repr

/-- `load` from `resolver/src/partner.rs`: dispatch on the partner
variant; for `Registry` the registry name defaults to `"catalog"` and
the string sub-dispatch selects catalog / cluster / unknown-registry
failure. -/
def load (name : String) (partner : Partner) : Except ResolveError LoadPath :=
  match partner with
  | .Registry registry version =>
    let r := registry.getD "catalog"
    if r = "catalog" then .ok (.catalog name version)
    else if r = "hub" then .ok (.cluster name)
    else .error (.UnknownCharacterRegistry r)
  | .Repository reference => .ok (.source reference)
  | .Other => .error .UnsupportedPartner

/-- Outcome of a `PlaybookService` call: `unimplemented` models the
Rust `unimplemented!()` panic (the call never produces a value). -/
inductive ServiceOutcome (α : Type) where
  | ok (a : α)
  | unimplemented
deriving DecidableEq, Repr

namespace PlaybookService

/-- `PlaybookService::start` (`apiserver/src/services/playbook.rs`):
the body is `unimplemented!()`. -/
def start (_id : String) : ServiceOutcome Unit := .unimplemented

/-- `PlaybookService::stop`: the body is `unimplemented!()`. -/
def stop (_id : String) : ServiceOutcome Unit := .unimplemented

end PlaybookService

theorem isEmpty_false_of_ne_nil {α : Type} {l : List α} (h : l ≠ []) :
    l.isEmpty = false := by
  cases l with
  | nil => exact absurd rfl h
  | cons a as => rfl

/-- A reconcile of a Playbook in Ready status (non-empty actors, not
deletion-marked) performs no effect and awaits changes. -/
theorem reconcile_ready_noop (p : Playbook) (env : Env)
    (hne : p.spec.actors ≠ []) (hdel : p.deletionRequested = false)
    (hst : p.status = some PlaybookState.Ready) :
    reconcile p env = ([], .ok Action.awaitChange) := by
  simp [reconcile, finalizer, Playbook.reconcile, Except.map, isEmpty_false_of_ne_nil hne, hdel, hst]

/-- The example actor `web{repo:"R1", partners:["R2"]}` from the
testable properties. -/
def webActor : Actor :=
  { name := "web", description := "", image := "", repo := "R1", path := "",
    reference := "", commit := "", environment := [], partners := ["R2"] }

/-- The example Playbook holding `webActor`, in Solving status. -/
def solvingPlaybook : Playbook :=
  { name := "example", spec := ⟨[webActor]⟩, status := some .Solving,
    deletionRequested := false }

/-- A deletion-marked Playbook with an empty actor list. -/
def emptyDeletedPlaybook : Playbook :=
  { name := "doomed", spec := ⟨[]⟩, status := some .Ready,
    deletionRequested := true }

/-- Claim C2: any Playbook with an empty `spec.actors` makes reconcile
fail with `EmptyActorsError` before any finalizer dispatch — the effect
trace is empty, so there is no store mutation, no cleanup publication
and no finalizer release, whatever the status, deletion marker or
environment. -/
theorem reconcile_empty_actors_fails (p : Playbook) (env : Env)
    (h : p.spec.actors = []) :
    reconcile p env = ([], .error Error.EmptyActorsError) := by
  simp [reconcile, h]

/-- Witness for C2: a deletion-marked empty-actors Playbook gets the
fail-fast error, no cleanup event and no finalizer release. -/
theorem reconcile_empty_actors_fails_witness :
    reconcile emptyDeletedPlaybook Env.allOk = ([], .error Error.EmptyActorsError) :=
  reconcile_empty_actors_fails emptyDeletedPlaybook Env.allOk rfl

/-- Claim C8: a reconcile of a Pending Playbook with non-empty actors
(store patch succeeding) performs exactly the status patch to Solving;
the stored object afterwards is in Solving status with the actor list
unchanged. -/
theorem reconcile_pending_to_solving (p : Playbook) (env : Env)
    (hne : p.spec.actors ≠ []) (hdel : p.deletionRequested = false)
    (hst : p.status = some PlaybookState.Pending)
    (hpatch : env.patchStatusRes = none) :
    (reconcile p env).1 = [Effect.patchStatus PlaybookState.Solving] ∧
    (reconcile p env).2 = .ok Action.awaitChange ∧
    (applyEffects p (reconcile p env).1).spec.actors = p.spec.actors ∧
    (applyEffects p (reconcile p env).1).status = some PlaybookState.Solving := by
  simp [reconcile, finalizer, Playbook.reconcile, Playbook.start, Except.map,
    isEmpty_false_of_ne_nil hne, hdel, hst, hpatch, applyEffects, applyEffect]

/-- Witness for C8: a Pending Playbook with the example actor
transitions to Solving with only the status patch as effect. -/
theorem reconcile_pending_to_solving_witness :
    (reconcile { solvingPlaybook with status := some .Pending } Env.allOk).1 =
      [Effect.patchStatus PlaybookState.Solving] ∧
    (reconcile { solvingPlaybook with status := some .Pending } Env.allOk).2 =
      .ok Action.awaitChange ∧
    (applyEffects { solvingPlaybook with status := some .Pending }
        (reconcile { solvingPlaybook with status := some .Pending } Env.allOk).1).spec.actors =
      [webActor] ∧
    (applyEffects { solvingPlaybook with status := some .Pending }
        (reconcile { solvingPlaybook with status := some .Pending } Env.allOk).1).status =
      some PlaybookState.Solving := by
  have h := reconcile_pending_to_solving { solvingPlaybook with status := some .Pending }
    Env.allOk (by decide) rfl rfl rfl
  exact ⟨h.1, h.2.1, h.2.2.1, h.2.2.2⟩

/-- Claim C10: a Playbook with non-empty actors and no reported status
makes the Apply-path reconcile a pure no-op: no effects (no store
mutation, in particular no Pending initialization) and a successful
await-change answer. -/
theorem reconcile_status_absent_noop (p : Playbook) (env : Env)
    (hne : p.spec.actors ≠ []) (hdel : p.deletionRequested = false)
    (hst : p.status = none) :
    reconcile p env = ([], .ok Action.awaitChange) := by
  simp [reconcile, finalizer, Playbook.reconcile, Except.map, isEmpty_false_of_ne_nil hne, hdel, hst]

/-- Witness for C10: the example Playbook with absent status is left
untouched. -/
theorem reconcile_status_absent_noop_witness :
    reconcile { solvingPlaybook with status := none } Env.allOk =
      ([], .ok Action.awaitChange) :=
  reconcile_status_absent_noop { solvingPlaybook with status := none } Env.allOk
    (by decide) rfl rfl

theorem solve_eq_of_ok {p : Playbook} {env : Env}
    (hadd : env.addActorRes = none) (hpatch : env.patchStatusRes = none) :
    p.solve env =
      (((solveFetches p.spec.actors).map fun u => Effect.addActor (read_partner u)) ++
        (if (solveFetches p.spec.actors).isEmpty then [Effect.patchStatus PlaybookState.Ready]
         else []),
       Except.ok ()) := by
  simp only [Playbook.solve]
  rw [addActors_ok hadd]
  by_cases hf : (solveFetches p.spec.actors).isEmpty
  · simp [hf, hpatch]
  · simp [hf]

/-- Claim C1: one solve pass on a Solving Playbook (store calls
succeeding) computes the missing set — exactly the partner repos
referenced by some current actor that are not the repo of any current
actor — appends exactly one new actor per missing repo (each appended
actor's repo being that url), patches the status to Ready exactly when
the missing set is empty, and otherwise leaves the status Solving with
a strictly grown actor list. -/
theorem solve_expands_missing (p : Playbook) (env : Env)
    (hst : p.status = some PlaybookState.Solving)
    (hadd : env.addActorRes = none) (hpatch : env.patchStatusRes = none) :
    (∀ r, r ∈ solveFetches p.spec.actors ↔
        (∃ a ∈ p.spec.actors, r ∈ a.partners) ∧
          r ∉ p.spec.actors.map (fun a => a.repo)) ∧
    (solveFetches p.spec.actors).Nodup ∧
    (∀ u, (read_partner u).repo = u) ∧
    (p.solve env).2 = .ok () ∧
    (p.solve env).1 =
      ((solveFetches p.spec.actors).map fun u => Effect.addActor (read_partner u)) ++
        (if (solveFetches p.spec.actors).isEmpty then [Effect.patchStatus PlaybookState.Ready]
         else []) ∧
    (applyEffects p (p.solve env).1).spec.actors =
      p.spec.actors ++ (solveFetches p.spec.actors).map read_partner ∧
    (solveFetches p.spec.actors = [] →
      (applyEffects p (p.solve env).1).status = some PlaybookState.Ready ∧
      (applyEffects p (p.solve env).1).spec.actors = p.spec.actors) ∧
    (solveFetches p.spec.actors ≠ [] →
      (applyEffects p (p.solve env).1).status = some PlaybookState.Solving ∧
      p.spec.actors.length < (applyEffects p (p.solve env).1).spec.actors.length) := by
  have hsolve := solve_eq_of_ok (p := p) hadd hpatch
  refine ⟨fun r => mem_solveFetches, nodup_solveFetches, fun u => rfl, ?_, ?_, ?_, ?_, ?_⟩
  · rw [hsolve]
  · rw [hsolve]
  · rw [hsolve]
    by_cases hf : solveFetches p.spec.actors = []
    · simp [hf, applyEffects, applyEffect]
    · rw [isEmpty_false_of_ne_nil hf]
      simp only [Bool.false_eq_true, if_false, List.append_nil]
      rw [applyEffects_addActorList]
  · intro hf
    rw [hsolve, hf]
    simp [applyEffects, applyEffect]
  · intro hf
    rw [hsolve, isEmpty_false_of_ne_nil hf]
    simp only [Bool.false_eq_true, if_false, List.append_nil]
    rw [applyEffects_addActorList]
    refine ⟨hst, ?_⟩
    have hlen : 0 < ((solveFetches p.spec.actors).map read_partner).length := by
      rw [List.length_map]
      exact List.length_pos.mpr hf
    simp only [List.length_append]
    omega

/-- Witness for C1: for the example `web{repo:"R1", partners:["R2"]}`
one solve pass appends exactly the one actor with repo `"R2"` and the
status stays Solving. -/
theorem solve_expands_missing_witness :
    (solvingPlaybook.solve Env.allOk).1 = [Effect.addActor (read_partner "R2")] ∧
    (applyEffects solvingPlaybook (solvingPlaybook.solve Env.allOk).1).spec.actors =
      [webActor, read_partner "R2"] ∧
    (applyEffects solvingPlaybook (solvingPlaybook.solve Env.allOk).1).status =
      some PlaybookState.Solving := by
  have h := solve_expands_missing solvingPlaybook Env.allOk rfl rfl rfl
  refine ⟨?_, ?_, (h.2.2.2.2.2.2.2 (by decide)).1⟩
  · rw [h.2.2.2.2.1]; decide
  · rw [h.2.2.2.2.2.1]; decide

/-- The example Playbook after one expansion: `web` plus the actor
materialized for `"R2"`; no partner repo is missing any more. -/
def convergedPlaybook : Playbook :=
  { name := "example", spec := ⟨[webActor, read_partner "R2"]⟩,
    status := some .Solving, deletionRequested := false }

/-- Claim C3: once converged (no actor references a repo absent from
the actor list), the next solve pass patches the status to Ready and
leaves the actor list unchanged; afterwards any reconcile of the Ready
object is a no-op (no status patch, no actor change, so no regression
to Solving), and running solve again still appends nothing and leaves
the object fixed. -/
theorem solve_converged_idempotent (p : Playbook) (env : Env)
    (hne : p.spec.actors ≠ []) (hdel : p.deletionRequested = false)
    (hconv : solveFetches p.spec.actors = [])
    (hpatch : env.patchStatusRes = none) :
    p.solve env = ([Effect.patchStatus PlaybookState.Ready], .ok ()) ∧
    (applyEffects p (p.solve env).1).spec.actors = p.spec.actors ∧
    (applyEffects p (p.solve env).1).status = some PlaybookState.Ready ∧
    (∀ env' : Env,
      reconcile (applyEffects p (p.solve env).1) env' = ([], .ok Action.awaitChange)) ∧
    (∀ env' : Env, env'.patchStatusRes = none →
      (applyEffects p (p.solve env).1).solve env' =
        ([Effect.patchStatus PlaybookState.Ready], .ok ()) ∧
      applyEffects (applyEffects p (p.solve env).1)
          ((applyEffects p (p.solve env).1).solve env').1 =
        applyEffects p (p.solve env).1) := by
  have hsolve : p.solve env = ([Effect.patchStatus PlaybookState.Ready], .ok ()) := by
    simp [Playbook.solve, hconv, addActors, hpatch]
  have hp' : applyEffects p (p.solve env).1 = { p with status := some PlaybookState.Ready } := by
    rw [hsolve]
    rfl
  have hactors : ({ p with status := some PlaybookState.Ready } : Playbook).spec.actors =
      p.spec.actors := rfl
  have hsolve' : ∀ env' : Env, env'.patchStatusRes = none →
      ({ p with status := some PlaybookState.Ready } : Playbook).solve env' =
        ([Effect.patchStatus PlaybookState.Ready], .ok ()) := by
    intro env' hp'
    simp [Playbook.solve, hconv, addActors, hp']
  refine ⟨hsolve, ?_, ?_, ?_, ?_⟩
  · rw [hp']
  · rw [hp']
  · intro env'
    rw [hp']
    exact reconcile_ready_noop _ env' hne hdel rfl
  · intro env' hpr
    rw [hp']
    refine ⟨hsolve' env' hpr, ?_⟩
    rw [hsolve' env' hpr]
    rfl

/-- Witness for C3: the converged example transitions to Ready with no
actor change, and the Ready object reconciles as a pure no-op. -/
theorem solve_converged_idempotent_witness :
    convergedPlaybook.solve Env.allOk = ([Effect.patchStatus PlaybookState.Ready], .ok ()) ∧
    (applyEffects convergedPlaybook (convergedPlaybook.solve Env.allOk).1).spec.actors =
      [webActor, read_partner "R2"] ∧
    reconcile (applyEffects convergedPlaybook (convergedPlaybook.solve Env.allOk).1)
      Env.allOk = ([], .ok Action.awaitChange) := by
  have h := solve_converged_idempotent convergedPlaybook Env.allOk
    (by decide) rfl (by decide) rfl
  exact ⟨h.1, h.2.1, h.2.2.2.1 Env.allOk⟩

/-- Claim C4: the resolver's `load` dispatches exactly as specified —
an absent registry name defaults to `"catalog"` and resolves via the
catalog path, `"hub"` via the cluster path, any other registry name
fails with `UnknownCharacterRegistry` carrying that name, `Repository`
resolves via the source-loading path, and any other partner variant
fails with `UnsupportedPartner`. -/
theorem load_dispatch (name version : String) (ref : GitReference) (r : String)
    (hr1 : r ≠ "catalog") (hr2 : r ≠ "hub") :
    load name (.Registry none version) = .ok (.catalog name version) ∧
    load name (.Registry (some "catalog") version) = .ok (.catalog name version) ∧
    load name (.Registry (some "hub") version) = .ok (.cluster name) ∧
    load name (.Registry (some r) version) = .error (.UnknownCharacterRegistry r) ∧
    load name (.Repository ref) = .ok (.source ref) ∧
    load name .Other = .error .UnsupportedPartner := by
  refine ⟨rfl, rfl, rfl, ?_, rfl, rfl⟩
  simp [load, Option.getD, hr1, hr2]

/-- Witness for C4: the `"ftp"` registry fails with
`UnknownCharacterRegistry("ftp")` while the defaulted name resolves via
the catalog path. -/
theorem load_dispatch_witness :
    load "nodejs" (.Registry (some "ftp") "1.0") =
      .error (.UnknownCharacterRegistry "ftp") ∧
    load "nodejs" (.Registry none "1.0") = .ok (.catalog "nodejs" "1.0") := by
  have h := load_dispatch "nodejs" "1.0" ⟨"github.com/x/lib"⟩ "ftp" (by decide) (by decide)
  exact ⟨h.2.2.2.1, h.1⟩

/-- Claim C5, evaluated at the failing input: the solve step does not
invoke the dependency resolver — the actor appended for the missing
repo `"R2"` of the example playbook is the fixed `read_partner`
placeholder, whose every field except `repo` is a constant (same name,
image and commit for any url). -/
theorem solve_uses_placeholder_not_resolver :
    (solvingPlaybook.solve Env.allOk).1 = [Effect.addActor (read_partner "R2")] ∧
    read_partner "R2" =
      { name := "amp-example-nodejs", description := "A simple NodeJs example app",
        image := "amp-example-nodejs", repo := "R2", path := ".",
        reference := "master", commit := "285ef2bc98fb6b3db46a96b6a750fad2d0c566b5",
        environment := [], partners := [] } ∧
    (read_partner "github.com/x/lib").name = (read_partner "R2").name ∧
    (read_partner "github.com/x/lib").image = (read_partner "R2").image ∧
    (read_partner "github.com/x/lib").commit = (read_partner "R2").commit := by
  exact ⟨by decide, rfl, rfl, rfl, rfl⟩

/-- The environment in which the status patch fails with a store
conflict and every other call succeeds. -/
def envPatchFail : Env :=
  { Env.allOk with patchStatusRes := some (.err "conflict") }

/-- Counterexample to claim C6: a business-logic (store) failure inside
the Apply body — the status patch failing while starting the Pending
example playbook — reaches the caller wrapped as
`FinalizerError (applyFailed …)`, not as the ordinary unwrapped error. -/
theorem business_failure_wrapped_in_finalizer_error :
    (reconcile { solvingPlaybook with status := some PlaybookState.Pending }
        envPatchFail).2 =
      .error (.FinalizerError (.applyFailed (.KubeError (.err "conflict")))) ∧
    (reconcile { solvingPlaybook with status := some PlaybookState.Pending }
        envPatchFail).2 ≠
      .error (.KubeError (.err "conflict")) := by
  refine ⟨rfl, ?_⟩
  intro h
  have h1 : (reconcile { solvingPlaybook with status := some PlaybookState.Pending }
      envPatchFail).2 =
      Except.error (Error.FinalizerError (.applyFailed (.KubeError (.err "conflict")))) := rfl
  rw [h1] at h
  exact Except.noConfusion h fun h2 => Error.noConfusion h2

/-- Claim C6 (amended): for a Playbook with non-empty actors, every
reconcile failure — business-logic failures from the Apply/Cleanup
bodies included — is wrapped in `FinalizerError` before reaching the
caller (the wrapper's constructors still distinguish body failures from
protocol failures); only the empty-actors precondition error propagates
unwrapped. -/
theorem reconcile_errors_finalizer_wrapped (p : Playbook) (env : Env) (e : Error)
    (hne : p.spec.actors ≠ [])
    (herr : (reconcile p env).2 = .error e) :
    ∃ fe, e = Error.FinalizerError fe := by
  unfold reconcile at herr
  rw [isEmpty_false_of_ne_nil hne] at herr
  simp only [Bool.false_eq_true, if_false] at herr
  cases hfe : finalizer p env with
  | mk effs r =>
    rw [hfe] at herr
    cases r with
    | ok a => exact absurd herr (by simp)
    | error fe =>
      simp only [Except.error.injEq] at herr
      exact ⟨fe, herr.symm⟩

/-- Witness for C6 (amended): the wrapped error of the counterexample
run is `FinalizerError`-shaped. -/
theorem reconcile_errors_finalizer_wrapped_witness :
    ∃ fe, Error.FinalizerError (.applyFailed (.KubeError (.err "conflict"))) =
      Error.FinalizerError fe :=
  reconcile_errors_finalizer_wrapped
    { solvingPlaybook with status := some PlaybookState.Pending } envPatchFail
    (Error.FinalizerError (.applyFailed (.KubeError (.err "conflict"))))
    (by decide) rfl

/-- Claim C7: on a delete request for a Playbook with non-empty actors,
the cleanup path publishes exactly one deletion audit event, and only
after it does the finalizer release appear; when the publish fails the
reconcile fails (with the publish error inside the cleanup failure) and
no finalizer release happens. -/
theorem cleanup_publishes_before_release (p : Playbook) (env : Env)
    (hne : p.spec.actors ≠ []) (hdel : p.deletionRequested = true) :
    (env.publishRes = none →
      (reconcile p env).1 =
        Effect.publish "Normal" "DeletePlaybook" (deleteNote p.name) "Reconciling" ::
          (if env.removeFinalizerRes = none then [Effect.removeFinalizer] else [])) ∧
    (∀ e, env.publishRes = some e →
      (reconcile p env).1 = [] ∧
      (reconcile p env).2 =
        .error (.FinalizerError (.cleanupFailed (.KubeError e)))) := by
  constructor
  · intro hpub
    cases hrf : env.removeFinalizerRes with
    | none =>
      simp [reconcile, finalizer, Playbook.cleanup, isEmpty_false_of_ne_nil hne,
        hdel, hpub, hrf]
    | some e =>
      simp [reconcile, finalizer, Playbook.cleanup, isEmpty_false_of_ne_nil hne,
        hdel, hpub, hrf]
  · intro e hpub
    constructor <;>
      simp [reconcile, finalizer, Playbook.cleanup, isEmpty_false_of_ne_nil hne,
        hdel, hpub]

/-- Witness for C7: deleting the example playbook publishes the single
audit event and then releases the finalizer. -/
theorem cleanup_publishes_before_release_witness :
    (reconcile { solvingPlaybook with deletionRequested := true } Env.allOk).1 =
      [Effect.publish "Normal" "DeletePlaybook" (deleteNote "example") "Reconciling",
       Effect.removeFinalizer] := by
  have h := cleanup_publishes_before_release
    { solvingPlaybook with deletionRequested := true } Env.allOk (by decide) rfl
  have h1 := h.1 rfl
  rw [h1]
  decide

/-- Counterexample to claim C9: the service operations for requesting
the Ready→Running transition and its reverse exist, but both are
unimplemented stubs — a start/stop request never produces an accepted
outcome. -/
theorem start_stop_unimplemented :
    PlaybookService.start "5b0250ad" = ServiceOutcome.unimplemented ∧
    PlaybookService.stop "5b0250ad" = ServiceOutcome.unimplemented ∧
    PlaybookService.start "5b0250ad" ≠ ServiceOutcome.ok () := by
  refine ⟨rfl, rfl, ?_⟩
  decide

/-- Claim C9 (amended): the reconciler never drives the Ready → Running
transition — a reconcile of a Ready Playbook patches neither status nor
actors — and requesting that transition and its reverse is exposed as
the explicit `PlaybookService` start/stop operations, which are however
unimplemented stubs that do not accept the request. -/
theorem ready_transition_external (p : Playbook) (env : Env)
    (hne : p.spec.actors ≠ []) (hdel : p.deletionRequested = false)
    (hst : p.status = some PlaybookState.Ready) :
    reconcile p env = ([], .ok Action.awaitChange) ∧
    (∀ id, PlaybookService.start id = ServiceOutcome.unimplemented ∧
           PlaybookService.stop id = ServiceOutcome.unimplemented) :=
  ⟨reconcile_ready_noop p env hne hdel hst, fun _ => ⟨rfl, rfl⟩⟩

/-- Witness for C9 (amended): the Ready example playbook reconciles as
a no-op and a concrete start request hits the unimplemented stub. -/
theorem ready_transition_external_witness :
    reconcile { solvingPlaybook with status := some PlaybookState.Ready } Env.allOk =
      ([], .ok Action.awaitChange) ∧
    PlaybookService.start "207e2c37" = ServiceOutcome.unimplemented := by
  have h := ready_transition_external
    { solvingPlaybook with status := some PlaybookState.Ready } Env.allOk
    (by decide) rfl rfl
  exact ⟨h.1, (h.2 "207e2c37").1⟩

end Amphitheatre
